import Mathlib

/-!
Shallow embedding of the Klyptio prisma-adapter core:
the fluent query builder (src/query-builder.ts, shipped inside
scripts/setup.ts in this snapshot), the adapter façade
(src/adapter.ts) and the Redis-backed cache (src/cache.ts).
JavaScript values appearing in filters and raw-query
parameters are modelled by `JSValue`; JS numbers are modelled
by `Int` (all numbers the claims touch are integral); the
mutable builder/cache state is threaded explicitly.
-/

/-- Model of the JavaScript values that flow through filters and
raw-query parameter lists.  `vObj` stands for any non-null object
(its fields are irrelevant to every code path modelled here);
`vRawSql` models a Prisma `Sql` fragment handed to `whereComplex`. -/
inductive JSValue where
  | vStr (s : String)
  | vNum (n : Int)
  | vBool (b : Bool)
  | vNull
  | vObj
  | vRawSql (sql : String)
  deriving DecidableEq, Repr

/-- The single-quote character, written via its code point. -/
def squote : Char := Char.ofNat 39

/-- One left-to-right pass of the global regex replace inside
`PrismaQueryBuilder.sanitizeValue` (pattern: the character class of
semicolon, single quote, double quote and backslash, alternated with
a double dash; replacement: the empty string): every occurrence of
one of the four characters, and every non-overlapping occurrence of
the two-dash sequence, is deleted. -/
def stripChars : List Char → List Char
  | [] => []
  | '-' :: '-' :: rest => stripChars rest
  | c :: rest =>
      if c = ';' ∨ c = squote ∨ c = '"' ∨ c = '\\' then stripChars rest
      else c :: stripChars rest

/-- `sanitizeValue` from the query builder: strings are stripped,
every other value is returned unchanged. -/
def sanitizeValue : JSValue → JSValue
  | .vStr s => .vStr ⟨stripChars s.data⟩
  | v => v

/-- A JavaScript plain object, as an ordered association list. -/
abbrev JSObj := List (String × JSValue)

/-- First-match key lookup in a JS object. -/
def lookupKey : JSObj → String → Option JSValue
  | [], _ => none
  | (k, v) :: rest, key => if k = key then some v else lookupKey rest key

/-- Model of the JS object spread `\x7b...o1, ...o2\x7d`: keys of `o1`
keep their position (values overwritten by `o2` where present) and
keys only in `o2` are appended in order. -/
def mergeObj (o1 o2 : JSObj) : JSObj :=
  (o1.map fun kv =>
    match lookupKey o2 kv.1 with
    | some v => (kv.1, v)
    | none => kv)
  ++ o2.filter fun kv => (lookupKey o1 kv.1).isNone

/-- `Object.entries(condition)` mapped through `sanitizeValue`, as in
`PrismaQueryBuilder.where`. -/
def sanitizeCondition (cond : JSObj) : JSObj :=
  cond.map fun kv => (kv.1, sanitizeValue kv.2)

/-- JS truthiness of a number: `0` (and `NaN`, not modelled) is falsy. -/
def truthyInt : Option Int → Option Int
  | some n => if n = 0 then none else some n
  | none => none

/-- `x || d` for an optional JS number `x`: the default is taken when
`x` is `undefined` or falsy (in particular when `x` is `0`). -/
def jsOrInt (x : Option Int) (d : Int) : Int :=
  match x with
  | some n => if n = 0 then d else n
  | none => d

/-- The `QueryOptions` shape accepted by `PrismaAdapter.query`
(src/types.ts). -/
structure QueryOptions where
  select : Option (List String) := none
  includeRels : Option (List String) := none
  where_ : Option JSObj := none
  orderBy : Option (List (String × String)) := none
  page : Option Int := none
  perPage : Option Int := none
  write : Bool := false
  deriving DecidableEq, Repr

/-- The `QueryBuilderOptions` shape the builder is constructed with
(src/query-builder.ts); `take`/`skip` exist on the interface but
`PrismaAdapter.query` never populates them. -/
structure QueryBuilderOptions where
  model : String
  select : Option (List (String × Bool)) := none
  includeRels : Option (List (String × Bool)) := none
  where_ : Option JSObj := none
  orderBy : Option (List (String × String)) := none
  page : Option Int := none
  perPage : Option Int := none
  write : Bool := false
  take : Option Int := none
  skip : Option Int := none
  deriving DecidableEq, Repr

/-- The builder's internal `query` object: the structured query that
`execute` hands to the connection (`findMany`/`findFirst`/`count`). -/
structure PrismaQuery where
  select : Option (List (String × Bool)) := none
  includeRels : Option (List (String × Bool)) := none
  where_ : Option JSObj := none
  orderBy : Option (List (String × String)) := none
  take : Option Int := none
  skip : Option Int := none
  deriving DecidableEq, Repr

/-- `fields.reduce((acc, field) => (\x7b...acc, [field]: true\x7d), \x7b\x7d)`:
later duplicates collapse onto the first occurrence (the value is
always `true`). -/
def toBoolMap (fields : List String) : List (String × Bool) :=
  fields.foldl (fun acc f => if acc.any (fun kv => kv.1 = f) then acc else acc ++ [(f, true)]) []

namespace PrismaQueryBuilder

/-- `buildBaseQuery` from the builder constructor: each option field is
copied into the query when truthy; `take`/`skip` are JS numbers, so a
`0` is falsy and dropped; `page`/`perPage`/`write`/`model` are never
read. -/
def buildBaseQuery (o : QueryBuilderOptions) : PrismaQuery :=
  { select := o.select
    includeRels := o.includeRels
    where_ := o.where_
    orderBy := o.orderBy
    take := truthyInt o.take
    skip := truthyInt o.skip }

/-- `where(condition)`: sanitize each entry's value, then spread the
sanitized condition over the existing filter. -/
def where_ (q : PrismaQuery) (cond : JSObj) : PrismaQuery :=
  { q with where_ := some (mergeObj (q.where_.getD []) (sanitizeCondition cond)) }

/-- `whereComplex(conditions)`: spreads `\x7bAND: conditions\x7d` over the
existing filter; the raw fragment is not sanitized. -/
def whereComplex (q : PrismaQuery) (conditions : String) : PrismaQuery :=
  { q with where_ := some (mergeObj (q.where_.getD []) [("AND", JSValue.vRawSql conditions)]) }

/-- `paginate(page, perPage)`. -/
def paginate (q : PrismaQuery) (pageArg perPage : Int) : PrismaQuery :=
  { q with skip := some ((pageArg - 1) * perPage), take := some perPage }

/-- `page(pageNumber)`: recomputes `skip` from `this.query.take || 10`. -/
def page (q : PrismaQuery) (pageNumber : Int) : PrismaQuery :=
  { q with skip := some ((pageNumber - 1) * jsOrInt q.take 10) }

/-- `perPage(limit)`. -/
def perPage (q : PrismaQuery) (limit : Int) : PrismaQuery :=
  { q with take := some limit }

end PrismaQueryBuilder

namespace PrismaAdapter

/-- The option transformation inside `PrismaAdapter.query`: `select`
and `include` lists become boolean maps, `where`/`orderBy` are passed
through when present, `page`/`perPage` are passed through when truthy,
and `take`/`skip` are never supplied. -/
def transformOptions (model : String) (o : QueryOptions) : QueryBuilderOptions :=
  { model := model
    select := o.select.map toBoolMap
    includeRels := o.includeRels.map toBoolMap
    where_ := o.where_
    orderBy := o.orderBy
    page := truthyInt o.page
    perPage := truthyInt o.perPage
    write := o.write }

/-- The structured query that `PrismaAdapter.query` ends up executing
against the chosen connection: the builder is constructed with the
transformed options and immediately executes its base query. -/
def queryExecutedQuery (model : String) (o : QueryOptions) : PrismaQuery :=
  PrismaQueryBuilder.buildBaseQuery (transformOptions model o)

end PrismaAdapter

/-- JS ASCII whitespace relevant to the raw-SQL strings modelled here
(`String.prototype.trim`). -/
def isJsSpace (c : Char) : Bool :=
  c = ' ' || c = '\t' || c = '\n' || c = '\r'

/-- `text.trim()` on the character list. -/
def trimChars (l : List Char) : List Char :=
  ((l.dropWhile isJsSpace).reverse.dropWhile isJsSpace).reverse

/-- `text.toLowerCase()` on the character list (ASCII). -/
def lowerChars (l : List Char) : List Char :=
  l.map Char.toLower

/-- `text.startsWith(pat)` on character lists. -/
def startsWithChars : List Char → List Char → Bool
  | _, [] => true
  | [], _ :: _ => false
  | c :: cs, p :: ps => c = p && startsWithChars cs ps

/-- The guard in `PrismaQueryBuilder.executeRaw`:
`query.trim().toLowerCase().startsWith('select')`. -/
def isSelectPrefixed (q : String) : Bool :=
  startsWithChars (lowerChars (trimChars q.data)) "select".data

/-- `value.includes(dash-dash)` on the character list. -/
def hasDashDash : List Char → Bool
  | '-' :: '-' :: _ => true
  | _ :: rest => hasDashDash rest
  | [] => false

/-- `typeof param === 'object' && param !== null` for the modelled
values: plain objects and Prisma `Sql` fragments are JS objects;
`null` has typeof object in JS but is excluded by the explicit
null check in `validateParams`. -/
def isNonNullObject : JSValue → Bool
  | .vObj => true
  | .vRawSql _ => true
  | _ => false

/-- The error kinds of the spec's taxonomy that the raw-query path can
produce; each constructor carries the exact message thrown by the
source at the corresponding site. -/
inductive RawError where
  | validationError (msg : String)
  | securityError (msg : String)
  | timeoutError (msg : String)
  deriving DecidableEq, Repr

namespace PrismaQueryBuilder

/-- `validateParams(params)` from the query builder: the first
parameter that is a non-null object, or a string containing a
double dash, aborts with the corresponding (security-kind) error. -/
def validateParams : List JSValue → Option RawError
  | [] => none
  | p :: rest =>
      if isNonNullObject p then
        some (.securityError "Object parameters are not allowed in raw queries")
      else
        match p with
        | .vStr s =>
            if hasDashDash s.data then
              some (.securityError "Potential SQL injection detected")
            else validateParams rest
        | _ => validateParams rest

/-- What `executeRaw` settles to once past the two guards. -/
inductive RawOutcome where
  | failure (e : RawError)
  | connectionResult (n : Int)
  | connectionFailure (msg : String)
  deriving DecidableEq, Repr

/-- `executeRaw(query, params)` with the builder's configured
`timeout` (source default 30000 ms).  The `Promise.race` between the
raw execution and the rejection timer is modelled by comparing the
underlying call's settle delay with the timeout: the timer settles
first exactly when the timeout elapses strictly before the underlying
call settles, in which case the result is the timeout error while the
already-issued call is still in flight.  The returned `Bool` records
whether the raw execution was issued against the connection at all:
both guards fire before the connection is reached. -/
def executeRaw (timeoutMs : Int) (q : String) (params : List JSValue)
    (underlyingDelay : Int) (underlying : Except String Int) : Bool × RawOutcome :=
  if !(isSelectPrefixed q) then
    (false, .failure (.validationError "Raw queries are limited to SELECT statements for safety"))
  else
    match validateParams params with
    | some e => (false, .failure e)
    | none =>
        if timeoutMs < underlyingDelay then
          (true, .failure (.timeoutError "Query timeout"))
        else
          (true, match underlying with
            | .ok n => .connectionResult n
            | .error m => .connectionFailure m)

end PrismaQueryBuilder

namespace PrismaAdapter

/-- `getReadClient()`: pre-increments the rotation index modulo the
pool size and returns the client at the new index.  The returned
value is the index of the selected read connection. -/
def getReadClient (numClients cur : Nat) : Nat :=
  (cur + 1) % numClients

/-- Indices returned by `k` consecutive `getReadClient()` calls
starting from rotation index `cur`. -/
def readSelections (numClients cur : Nat) : Nat → List Nat
  | 0 => []
  | k + 1 =>
      getReadClient numClients cur ::
        readSelections numClients (getReadClient numClients cur) k

/-- The read pool built by the constructor: one client per read URL
when replication is enabled, and the write client as the sole entry
when that leaves the pool empty.  The rotation index starts at 0. -/
def initialClients (writeClient : String) (replicationEnabled : Bool)
    (reads : List String) : List String :=
  let cs := if replicationEnabled then reads else []
  if cs.isEmpty then [writeClient] else cs

/-- What `PrismaAdapter.execute` does: it can only ever forward to the
write client's raw-execution primitive; the failure alternative exists
in the type so that its impossibility is expressible. -/
inductive AdapterAction where
  | rawExecute (sql : String) (params : List JSValue)
  | adapterFailure (e : RawError)
  deriving DecidableEq, Repr

/-- `execute(query, params?)`: spreads `params || []` into
`writeClient.$executeRaw(query, ...)` with no validation of any kind. -/
def execute (sql : String) (params : Option (List JSValue)) : AdapterAction :=
  .rawExecute sql (params.getD [])

/-- Word characters for the regex word boundary in
`validateQueryParams`. -/
def isWordChar (c : Char) : Bool :=
  c.isAlphanum || c = '_'

/-- Case-insensitive keyword match at the head of the text; returns
the remaining characters on success. -/
def matchKeyword : List Char → List Char → Option (List Char)
  | [], l => some l
  | _ :: _, [] => none
  | k :: ks, c :: cs => if c.toLower = k then matchKeyword ks cs else none

/-- The SQL keywords of the injection pattern in
`PrismaAdapter.validateQueryParams`. -/
def sqlKeywords : List (List Char) :=
  ["union", "select", "insert", "update", "delete", "drop", "alter"].map String.data

/-- Scan for a whole-word, case-insensitive occurrence of one of the
keywords; `prevIsWord` tracks whether the previous character was a
word character (the left regex word boundary). -/
def containsSqlKeywordAux : Bool → List Char → Bool
  | _, [] => false
  | prevIsWord, c :: rest =>
      (!prevIsWord &&
        sqlKeywords.any fun kw =>
          match matchKeyword kw (c :: rest) with
          | some after =>
              match after with
              | [] => true
              | a :: _ => !isWordChar a
          | none => false)
      || containsSqlKeywordAux (isWordChar c) rest

/-- The test of the injection regex in `validateQueryParams`. -/
def containsSqlKeyword (s : String) : Bool :=
  containsSqlKeywordAux false s.data

/-- `validateQueryParams(params)`: for an object argument, the first
entry whose string value matches the injection pattern aborts with a
`SecurityError`.  This private helper exists on the adapter but no
adapter method ever calls it. -/
def validateQueryParams (params : JSObj) : Option RawError :=
  match params.find? (fun kv =>
      match kv.2 with
      | .vStr s => containsSqlKeyword s
      | _ => false) with
  | some kv => some (.securityError ("Potential SQL injection detected in parameter: " ++ kv.1))
  | none => none

/-- Outcome of an operation against the underlying client. -/
inductive DbOutcome (α : Type) where
  | ok (a : α)
  | err (msg : String)
  deriving DecidableEq, Repr

/-- The single update call `softDelete` issues:
`prisma[model].update(where: id, data: deletedAt = now)`. -/
structure UpdateCall where
  model : String
  whereId : Int
  dataDeletedAt : Int
  deriving DecidableEq, Repr

/-- The arguments `softDelete(model, id)` passes to the update, with
`now` the deletion timestamp taken at call time. -/
def softDeleteCall (model : String) (id now : Int) : UpdateCall :=
  { model := model, whereId := id, dataDeletedAt := now }

/-- `softDelete(model, id)`: the update's outcome is caught; any
failure becomes the return value `false`, success becomes `true`. -/
def softDelete (outcome : DbOutcome Unit) : Bool :=
  match outcome with
  | .ok _ => true
  | .err _ => false

/-- `checkConnectionPool()`: the round-trip `SELECT 1` outcome is
caught; any rejection is logged and becomes `false`. -/
def checkConnectionPool (outcome : DbOutcome Int) : Bool :=
  match outcome with
  | .ok _ => true
  | .err _ => false

end PrismaAdapter

/-- First-match association lookup used to model single-key Redis
reads. -/
def assocFind {α : Type} : List (String × α) → String → Option α
  | [], _ => none
  | e :: rest, key => if e.1 = key then some e.2 else assocFind rest key

/-- Removal of every entry under a key, used to model Redis key
deletion and sorted-set member removal. -/
def removeKey {α : Type} : List (String × α) → String → List (String × α)
  | [], _ => []
  | e :: rest, key => if e.1 = key then removeKey rest key else e :: removeKey rest key

/-- The Redis database as the cache sees it: the string keyspace
(key, serialized value, TTL in seconds) plus the one sorted set
`cache:access` of (member, score) pairs used as the access-order
index. -/
structure RedisState where
  kv : List (String × String × Nat)
  access : List (String × Int)
  deriving DecidableEq, Repr

/-- Value lookup (`redis.get`-visible state). -/
def lookupKV (s : RedisState) (key : String) : Option (String × Nat) :=
  assocFind s.kv key

/-- Score of a member of the access-order index, when present. -/
def accessScore (s : RedisState) (key : String) : Option Int :=
  assocFind s.access key

/-- `redis.dbsize()`: every key in the database counts, so the
`cache:access` sorted set itself is one key whenever it is
non-empty. -/
def dbsize (s : RedisState) : Nat :=
  s.kv.length + (if s.access.isEmpty then 0 else 1)

/-- `redis.del(key)` on the string keyspace. -/
def kvDel (s : RedisState) (key : String) : RedisState :=
  { s with kv := removeKey s.kv key }

/-- `redis.set(key, value, EX, ttl)`: upserts the key. -/
def kvSet (s : RedisState) (key value : String) (ttl : Nat) : RedisState :=
  { s with kv := (key, value, ttl) :: removeKey s.kv key }

/-- `redis.zrem('cache:access', key)`. -/
def zrem (s : RedisState) (key : String) : RedisState :=
  { s with access := removeKey s.access key }

/-- `redis.zadd('cache:access', score, key)`: upserts the member with
the new score. -/
def zadd (s : RedisState) (key : String) (score : Int) : RedisState :=
  { s with access := (key, score) :: removeKey s.access key }

/-- The sorted-set ordering of `cache:access`: ascending score, ties
broken by the member string (Redis orders equal-score members
lexicographically). -/
def accessLE (a b : String × Int) : Prop :=
  a.2 < b.2 ∨ (a.2 = b.2 ∧ a.1 ≤ b.1)

instance : DecidableRel accessLE := fun a b => by
  unfold accessLE; infer_instance

instance : IsTotal (String × Int) accessLE where
  total a b := by
    rcases lt_trichotomy a.2 b.2 with h | h | h
    · exact Or.inl (Or.inl h)
    · rcases le_total a.1 b.1 with h1 | h1
      · exact Or.inl (Or.inr ⟨h, h1⟩)
      · exact Or.inr (Or.inr ⟨h.symm, h1⟩)
    · exact Or.inr (Or.inl h)

instance : IsTrans (String × Int) accessLE where
  trans a b c hab hbc := by
    rcases hab with h1 | ⟨h1, h1'⟩
    · rcases hbc with h2 | ⟨h2, _⟩
      · exact Or.inl (h1.trans h2)
      · exact Or.inl (h2 ▸ h1)
    · rcases hbc with h2 | ⟨h2, h2'⟩
      · exact Or.inl (h1 ▸ h2)
      · exact Or.inr ⟨h1.trans h2, h1'.trans h2'⟩

/-- The access-order index sorted the way Redis ranks it. -/
def sortAccess (l : List (String × Int)) : List (String × Int) :=
  List.insertionSort accessLE l

/-- `redis.zrange('cache:access', 0, 9)`: the members of the ten
lowest-ranked entries. -/
def zrangeTen (s : RedisState) : List String :=
  ((sortAccess s.access).take 10).map Prod.fst

namespace PrismaCache

/-- The cache's mutable state: the Redis database plus the eviction
counter of the in-process `stats` record (hits/misses are not touched
by the operations modelled here). -/
structure CacheState where
  redis : RedisState
  evictions : Nat
  deriving DecidableEq, Repr

/-- `getKey(model, id)` with the configured key namespace `pre`
(source default: the string `prisma:`). -/
def getKey (pre model id : String) : String :=
  pre ++ model ++ ":" ++ id

/-- `evictOldest()`: reads the ten lowest-ranked members of the
access-order index and, when any exist, removes each one's value key
and index entry in a single pipelined batch, counting the removals as
evictions. -/
def evictStep (st : RedisState) (k : String) : RedisState :=
  zrem (kvDel st k) k

/-- `evictOldest()`, continued: the per-key removal of value and index
entry, folded over the batch. -/
def evictOldest (c : CacheState) : CacheState :=
  let oldestKeys := zrangeTen c.redis
  if oldestKeys.isEmpty then c
  else
    { redis := oldestKeys.foldl evictStep c.redis,
      evictions := c.evictions + oldestKeys.length }

/-- `set(model, id, data, ttl)`: when the database size has reached
the configured maximum, evict first; then write the serialized value
under the key with the TTL and record the access timestamp `now` in
the index. -/
def set (maxSize : Nat) (pre model id data : String) (ttl : Nat) (now : Int)
    (c : CacheState) : CacheState :=
  let key := getKey pre model id
  let c1 := if dbsize c.redis ≥ maxSize then evictOldest c else c
  { c1 with redis := zadd (kvSet c1.redis key data ttl) key now }

/-- `set` with its default TTL argument of 3600 seconds. -/
def setDefaultTtl (maxSize : Nat) (pre model id data : String) (now : Int)
    (c : CacheState) : CacheState :=
  set maxSize pre model id data 3600 now c

/-- `del(model, id)`: removes the value key, then the index entry. -/
def del (pre model id : String) (c : CacheState) : CacheState :=
  let key := getKey pre model id
  { c with redis := zrem (kvDel c.redis key) key }

/-- One Redis command as issued by the cache. -/
inductive RedisCmd where
  | cDel (key : String)
  | cZrem (zkey member : String)
  | cSet (key value : String) (ttl : Nat)
  | cZadd (zkey : String) (score : Int) (member : String)
  deriving DecidableEq, Repr

/-- How a command reaches Redis: awaited on its own, or as part of one
pipelined batch. -/
inductive RedisOp where
  | single (c : RedisCmd)
  | pipelined (cs : List RedisCmd)
  deriving DecidableEq, Repr

/-- The mutating commands `del(model, id)` sends: two separately
awaited single commands. -/
def delTrace (pre model id : String) : List RedisOp :=
  [ .single (.cDel (getKey pre model id)),
    .single (.cZrem "cache:access" (getKey pre model id)) ]

/-- The mutating commands `evictOldest()` sends: one pipelined batch
holding, for each evicted key, its value deletion followed by its
index removal (nothing when the index is empty). -/
def evictTrace (s : RedisState) : List RedisOp :=
  let oldestKeys := zrangeTen s
  if oldestKeys.isEmpty then []
  else [ .pipelined (oldestKeys.foldr (fun k acc => .cDel k :: .cZrem "cache:access" k :: acc) []) ]

/-- The mutating commands `set` sends: the eviction batch when the
size check fires, then the value write and the index update, each
awaited on its own. -/
def setTrace (maxSize : Nat) (pre model id data : String) (ttl : Nat) (now : Int)
    (s : RedisState) : List RedisOp :=
  let key := getKey pre model id
  (if dbsize s ≥ maxSize then evictTrace s else []) ++
    [ .single (.cSet key data ttl), .single (.cZadd "cache:access" now key) ]

end PrismaCache

/-- Whether a command trace consists of exactly one pipelined batch. -/
def isSinglePipelinedOp : List PrismaCache.RedisOp → Bool
  | [PrismaCache.RedisOp.pipelined _] => true
  | _ => false

/-- A concrete access-order index of eleven entries with ascending
scores, for evaluating the cache operations on explicit input. -/
def demoAccess : List (String × Int) :=
  (List.range 11).map fun i => ("prisma:user:" ++ toString i, (i : Int))

/-- A concrete Redis state holding eleven cached values and their
access-order entries. -/
def demoRedis : RedisState :=
  { kv := (List.range 11).map fun i => ("prisma:user:" ++ toString i, ("v", 3600)),
    access := demoAccess }

/-- The concrete cache state over `demoRedis`. -/
def demoCache : PrismaCache.CacheState :=
  { redis := demoRedis, evictions := 0 }

/-- A string value containing the double-dash sequence, as tested by
`validateParams` on string parameters. -/
def isDashDashString : JSValue → Bool
  | .vStr s => hasDashDash s.data
  | _ => false

/-- Whether a raw-query outcome is a failure of the security kind. -/
def isSecurityFailure : PrismaQueryBuilder.RawOutcome → Bool
  | .failure (.securityError _) => true
  | _ => false

/-! Helper lemmas about JS-object lookup and merging. -/

theorem lookupKey_append (l1 l2 : JSObj) (key : String) :
    lookupKey (l1 ++ l2) key =
      match lookupKey l1 key with
      | some v => some v
      | none => lookupKey l2 key := by
  induction l1 with
  | nil => simp [lookupKey]
  | cons kv rest ih =>
      obtain ⟨k, v⟩ := kv
      by_cases h : k = key
      · simp [lookupKey, h]
      · simp [lookupKey, h, ih]

theorem lookupKey_mapPatch (o1 o2 : JSObj) (key : String) :
    lookupKey (o1.map fun kv =>
        match lookupKey o2 kv.1 with
        | some v => (kv.1, v)
        | none => kv) key
      = (lookupKey o1 key).map fun v1 => (lookupKey o2 key).getD v1 := by
  induction o1 with
  | nil => simp [lookupKey]
  | cons kv rest ih =>
      obtain ⟨k, v⟩ := kv
      by_cases h : k = key
      · subst h
        cases h2 : lookupKey o2 k <;> simp [lookupKey, h2]
      · cases h2 : lookupKey o2 k <;> simp [lookupKey, h, h2, ih]

theorem lookupKey_filterNotIn (o1 o2 : JSObj) (key : String) :
    lookupKey (o2.filter fun kv => (lookupKey o1 kv.1).isNone) key
      = if (lookupKey o1 key).isNone then lookupKey o2 key else none := by
  induction o2 with
  | nil => simp [lookupKey]
  | cons kv rest ih =>
      obtain ⟨k, v⟩ := kv
      by_cases h : k = key
      · subst h
        cases h1 : lookupKey o1 k <;> simp [lookupKey, List.filter, h1, ih]
      · cases h1 : lookupKey o1 k <;>
          cases h1' : (lookupKey o1 key).isNone <;>
            simp_all [lookupKey, List.filter, h, ih]

theorem lookupKey_mergeObj (o1 o2 : JSObj) (key : String) :
    lookupKey (mergeObj o1 o2) key =
      match lookupKey o2 key with
      | some v => some v
      | none => lookupKey o1 key := by
  unfold mergeObj
  rw [lookupKey_append, lookupKey_mapPatch, lookupKey_filterNotIn]
  cases h1 : lookupKey o1 key <;> cases h2 : lookupKey o2 key <;> simp [h1, h2]

theorem lookupKey_sanitizeCondition (cond : JSObj) (key : String) :
    lookupKey (sanitizeCondition cond) key = (lookupKey cond key).map sanitizeValue := by
  induction cond with
  | nil => simp [lookupKey, sanitizeCondition]
  | cons kv rest ih =>
      obtain ⟨k, v⟩ := kv
      by_cases h : k = key
      · simp [lookupKey, sanitizeCondition, h]
      · simpa [lookupKey, sanitizeCondition, h] using ih

/-- Claim C6: `where(condition)` sanitizes each string value by
stripping the characters semicolon, single quote, double quote and
backslash and the two-dash comment sequence, leaves non-string values
unchanged, and merges the sanitized entries into the existing filter
with later calls overwriting earlier keys on conflict; in particular
a filter value of the string x dash dash y becomes the string xy, and
two successive `where` calls on distinct keys yield the merged
filter. -/
theorem claim6_where_sanitizes_and_merges :
    (∀ q cond key v, lookupKey cond key = some v →
        lookupKey ((PrismaQueryBuilder.where_ q cond).where_.getD []) key
          = some (sanitizeValue v)) ∧
    (∀ q cond key, lookupKey cond key = none →
        lookupKey ((PrismaQueryBuilder.where_ q cond).where_.getD []) key
          = lookupKey (q.where_.getD []) key) ∧
    (∀ v, (∀ s, v ≠ JSValue.vStr s) → sanitizeValue v = v) ∧
    ((PrismaQueryBuilder.where_ {} [("a", JSValue.vStr "x--y")]).where_
        = some [("a", JSValue.vStr "xy")]) ∧
    ((PrismaQueryBuilder.where_ (PrismaQueryBuilder.where_ {} [("a", JSValue.vNum 1)])
          [("b", JSValue.vNum 2)]).where_
        = some [("a", JSValue.vNum 1), ("b", JSValue.vNum 2)]) := by
  refine ⟨?_, ?_, ?_, by decide, by decide⟩
  · intro q cond key v h
    show lookupKey (mergeObj (q.where_.getD []) (sanitizeCondition cond)) key = _
    rw [lookupKey_mergeObj, lookupKey_sanitizeCondition, h]
    rfl
  · intro q cond key h
    show lookupKey (mergeObj (q.where_.getD []) (sanitizeCondition cond)) key = _
    rw [lookupKey_mergeObj, lookupKey_sanitizeCondition, h]
    rfl
  · intro v hv
    cases v with
    | vStr s => exact absurd rfl (hv s)
    | _ => rfl

/-- Witness for claim C6 at concrete inputs: a sanitized merge, an
untouched key, and an untouched non-string value. -/
theorem claim6_witness :
    lookupKey ((PrismaQueryBuilder.where_ {} [("a", JSValue.vStr "x--y")]).where_.getD []) "a"
        = some (sanitizeValue (JSValue.vStr "x--y")) ∧
    lookupKey ((PrismaQueryBuilder.where_ {} [("a", JSValue.vNum 1)]).where_.getD []) "zz"
        = lookupKey (({} : PrismaQuery).where_.getD []) "zz" ∧
    sanitizeValue (JSValue.vNum 7) = JSValue.vNum 7 :=
  ⟨claim6_where_sanitizes_and_merges.1 {} _ "a" _ (by decide),
   claim6_where_sanitizes_and_merges.2.1 {} _ "zz" (by decide),
   claim6_where_sanitizes_and_merges.2.2.1 _ (fun _ h => nomatch h)⟩

/-- Claim C7: `paginate(page, perPage)` sets skip to
(page minus 1) times perPage and take to perPage; `perPage(n)` alone
updates only take; `page(n)` alone recomputes skip from the take
already set, defaulting take to 10 when unset; so `page(2).perPage(10)`
yields skip 10 and take 10, and `page(1).perPage(20)` yields skip 0
and take 20. -/
theorem claim7_pagination :
    (∀ q p pp, (PrismaQueryBuilder.paginate q p pp).skip = some ((p - 1) * pp) ∧
        (PrismaQueryBuilder.paginate q p pp).take = some pp) ∧
    (∀ q n, (PrismaQueryBuilder.perPage q n).take = some n ∧
        (PrismaQueryBuilder.perPage q n).skip = q.skip ∧
        (PrismaQueryBuilder.perPage q n).where_ = q.where_ ∧
        (PrismaQueryBuilder.perPage q n).select = q.select ∧
        (PrismaQueryBuilder.perPage q n).includeRels = q.includeRels ∧
        (PrismaQueryBuilder.perPage q n).orderBy = q.orderBy) ∧
    (∀ q n, (PrismaQueryBuilder.page q n).skip = some ((n - 1) * jsOrInt q.take 10) ∧
        (PrismaQueryBuilder.page q n).take = q.take) ∧
    (∀ q n, q.take = none → (PrismaQueryBuilder.page q n).skip = some ((n - 1) * 10)) ∧
    ((PrismaQueryBuilder.perPage (PrismaQueryBuilder.page {} 2) 10).skip = some 10 ∧
      (PrismaQueryBuilder.perPage (PrismaQueryBuilder.page {} 2) 10).take = some 10) ∧
    ((PrismaQueryBuilder.perPage (PrismaQueryBuilder.page {} 1) 20).skip = some 0 ∧
      (PrismaQueryBuilder.perPage (PrismaQueryBuilder.page {} 1) 20).take = some 20) := by
  refine ⟨fun q p pp => ⟨rfl, rfl⟩,
          fun q n => ⟨rfl, rfl, rfl, rfl, rfl, rfl⟩,
          fun q n => ⟨rfl, rfl⟩,
          ?_, by decide, by decide⟩
  intro q n h
  simp [PrismaQueryBuilder.page, jsOrInt, h]

/-- Witness for claim C7: `page(2)` on a fresh builder (take unset)
computes skip from the default take of 10. -/
theorem claim7_witness :
    (PrismaQueryBuilder.page {} 2).skip = some ((2 - 1) * 10) :=
  claim7_pagination.2.2.2.1 {} 2 rfl

/-- Claim C8: `softDelete` returns false on any failure of the update
rather than propagating (on success it issues an update setting the
deletion timestamp and returns true), and `checkConnectionPool`
returns false, never throws, whenever the round-trip query rejects. -/
theorem claim8_boolean_failure_swallowing :
    (∀ e, PrismaAdapter.softDelete (.err e) = false) ∧
    (PrismaAdapter.softDelete (.ok ()) = true) ∧
    (∀ model id now, (PrismaAdapter.softDeleteCall model id now).dataDeletedAt = now ∧
        (PrismaAdapter.softDeleteCall model id now).whereId = id) ∧
    (∀ e, PrismaAdapter.checkConnectionPool (.err e) = false) ∧
    (∀ r, PrismaAdapter.checkConnectionPool (.ok r) = true) :=
  ⟨fun _ => rfl, rfl, fun _ _ _ => ⟨rfl, rfl⟩, fun _ => rfl, fun _ => rfl⟩

/-! Helper lemmas about the raw-query parameter validation. -/

theorem validateParams_none_iff (ps : List JSValue) :
    PrismaQueryBuilder.validateParams ps = none ↔
      ∀ p ∈ ps, isNonNullObject p = false ∧ isDashDashString p = false := by
  induction ps with
  | nil => simp [PrismaQueryBuilder.validateParams]
  | cons p0 rest ih =>
      cases p0 with
      | vStr s =>
          by_cases hdd : hasDashDash s.data <;>
            simp [PrismaQueryBuilder.validateParams, isNonNullObject, isDashDashString, hdd, ih]
      | vNum n => simp [PrismaQueryBuilder.validateParams, isNonNullObject, isDashDashString, ih]
      | vBool b => simp [PrismaQueryBuilder.validateParams, isNonNullObject, isDashDashString, ih]
      | vNull => simp [PrismaQueryBuilder.validateParams, isNonNullObject, isDashDashString, ih]
      | vObj => simp [PrismaQueryBuilder.validateParams, isNonNullObject]
      | vRawSql s => simp [PrismaQueryBuilder.validateParams, isNonNullObject]

theorem validateParams_some_security (ps : List JSValue) (e : RawError)
    (h : PrismaQueryBuilder.validateParams ps = some e) :
    ∃ msg, e = RawError.securityError msg := by
  induction ps with
  | nil => simp [PrismaQueryBuilder.validateParams] at h
  | cons p0 rest ih =>
      cases p0 with
      | vStr s =>
          by_cases hdd : hasDashDash s.data
          · simp [PrismaQueryBuilder.validateParams, isNonNullObject, hdd] at h
            exact ⟨_, h.symm⟩
          · exact ih (by simpa [PrismaQueryBuilder.validateParams, isNonNullObject, hdd] using h)
      | vNum n => exact ih (by simpa [PrismaQueryBuilder.validateParams, isNonNullObject] using h)
      | vBool b => exact ih (by simpa [PrismaQueryBuilder.validateParams, isNonNullObject] using h)
      | vNull => exact ih (by simpa [PrismaQueryBuilder.validateParams, isNonNullObject] using h)
      | vObj =>
          simp [PrismaQueryBuilder.validateParams, isNonNullObject] at h
          exact ⟨_, h.symm⟩
      | vRawSql s =>
          simp [PrismaQueryBuilder.validateParams, isNonNullObject] at h
          exact ⟨_, h.symm⟩

/-- Claim C4: `executeRaw(sqlText, params)` fails with a
validation-kind error before reaching the connection when the trimmed
statement does not start, case-insensitively, with the word select;
fails with a security-kind error (again before reaching the
connection) when any parameter is a non-null object or any string
parameter contains the double-dash sequence; otherwise it races the
raw execution against the configured timeout, and when the timer
settles first the call fails with the timeout error while the
already-issued underlying call is still in flight (the first
component records that the connection was reached). -/
theorem claim4_executeRaw_guards_and_timeout :
    (∀ t q ps d u, isSelectPrefixed q = false →
        PrismaQueryBuilder.executeRaw t q ps d u =
          (false, .failure (.validationError
            "Raw queries are limited to SELECT statements for safety"))) ∧
    (∀ t q ps d u, isSelectPrefixed q = true →
        (∃ p ∈ ps, isNonNullObject p = true ∨ isDashDashString p = true) →
        (PrismaQueryBuilder.executeRaw t q ps d u).1 = false ∧
          isSecurityFailure (PrismaQueryBuilder.executeRaw t q ps d u).2 = true) ∧
    (∀ t q ps d u, isSelectPrefixed q = true →
        PrismaQueryBuilder.validateParams ps = none → t < d →
        PrismaQueryBuilder.executeRaw t q ps d u =
          (true, .failure (.timeoutError "Query timeout"))) ∧
    (∀ t q ps d (u : Except String Int), isSelectPrefixed q = true →
        PrismaQueryBuilder.validateParams ps = none → ¬ t < d →
        PrismaQueryBuilder.executeRaw t q ps d u =
          (true, match u with
            | .ok n => .connectionResult n
            | .error m => .connectionFailure m)) := by
  refine ⟨?_, ?_, ?_, ?_⟩
  · intro t q ps d u h
    simp [PrismaQueryBuilder.executeRaw, h]
  · intro t q ps d u hsel hbad
    cases he : PrismaQueryBuilder.validateParams ps with
    | none =>
        obtain ⟨p, hp, hb⟩ := hbad
        obtain ⟨h1, h2⟩ := (validateParams_none_iff ps).mp he p hp
        cases hb with
        | inl h => rw [h1] at h; cases h
        | inr h => rw [h2] at h; cases h
    | some e =>
        obtain ⟨msg, rfl⟩ := validateParams_some_security ps e he
        simp [PrismaQueryBuilder.executeRaw, hsel, he, isSecurityFailure]
  · intro t q ps d u hsel hnone htd
    simp [PrismaQueryBuilder.executeRaw, hsel, hnone, htd]
  · intro t q ps d u hsel hnone htd
    cases u <;> simp [PrismaQueryBuilder.executeRaw, hsel, hnone, htd]

/-- Witness for claim C4 at the spec's own concrete inputs: a dropped
table statement, an object parameter, a commented string parameter,
and a query slower than the configured timeout. -/
theorem claim4_witness :
    (PrismaQueryBuilder.executeRaw 30000 "DROP TABLE x" [] 50 (.ok 1) =
        (false, .failure (.validationError
          "Raw queries are limited to SELECT statements for safety"))) ∧
    ((PrismaQueryBuilder.executeRaw 30000 "SELECT 1" [JSValue.vObj] 50 (.ok 1)).1 = false ∧
      isSecurityFailure (PrismaQueryBuilder.executeRaw 30000 "SELECT 1" [JSValue.vObj] 50 (.ok 1)).2
        = true) ∧
    ((PrismaQueryBuilder.executeRaw 30000 "SELECT 1" [JSValue.vStr "a--b"] 50 (.ok 1)).1 = false ∧
      isSecurityFailure
        (PrismaQueryBuilder.executeRaw 30000 "SELECT 1" [JSValue.vStr "a--b"] 50 (.ok 1)).2
        = true) ∧
    (PrismaQueryBuilder.executeRaw 100 "SELECT 1" [JSValue.vStr "ok"] 200 (.ok 1) =
        (true, .failure (.timeoutError "Query timeout"))) :=
  ⟨claim4_executeRaw_guards_and_timeout.1 30000 "DROP TABLE x" [] 50 (.ok 1) (by decide),
   claim4_executeRaw_guards_and_timeout.2.1 30000 "SELECT 1" [JSValue.vObj] 50 (.ok 1)
     (by decide) (by decide),
   claim4_executeRaw_guards_and_timeout.2.1 30000 "SELECT 1" [JSValue.vStr "a--b"] 50 (.ok 1)
     (by decide) (by decide),
   claim4_executeRaw_guards_and_timeout.2.2.1 100 "SELECT 1" [JSValue.vStr "ok"] 200 (.ok 1)
     (by decide) (by decide) (by decide)⟩

/-- Claim C9: `PrismaAdapter.execute(sql, params)` forwards the
statement directly to the write client's raw-execution primitive with
no read-only-keyword check and no parameter validation: it never
produces a validation or security failure of its own, even for
non-select statements, object parameters, strings containing the
double-dash sequence, or parameter objects that the adapter's own
(never-invoked) `validateQueryParams` helper would reject. -/
theorem claim9_adapter_execute_forwards_unvalidated :
    (∀ sql ps, PrismaAdapter.execute sql (some ps) = .rawExecute sql ps) ∧
    (∀ sql, PrismaAdapter.execute sql none = .rawExecute sql []) ∧
    (∀ sql ps e, PrismaAdapter.execute sql ps ≠ .adapterFailure e) ∧
    (∀ sql ps, isSelectPrefixed sql = false →
        PrismaAdapter.execute sql (some ps) = .rawExecute sql ps) ∧
    (∀ sql ps e, PrismaQueryBuilder.validateParams ps = some e →
        PrismaAdapter.execute sql (some ps) = .rawExecute sql ps) ∧
    (∀ sql entries e, PrismaAdapter.validateQueryParams entries = some e →
        ∀ ps, PrismaAdapter.execute sql ps = .rawExecute sql (ps.getD [])) := by
  refine ⟨fun _ _ => rfl, fun _ => rfl, ?_, fun _ _ _ => rfl, fun _ _ _ _ => rfl,
    fun _ _ _ _ _ => rfl⟩
  intro sql ps e h
  simp [PrismaAdapter.execute] at h

/-- Witness for claim C9: the adapter forwards a non-select statement,
a parameter list the builder's validator would reject, and a parameter
whose value the adapter's own keyword pattern would reject. -/
theorem claim9_witness :
    PrismaAdapter.execute "DROP TABLE x" (some [JSValue.vObj, JSValue.vStr "a--b"]) =
        .rawExecute "DROP TABLE x" [JSValue.vObj, JSValue.vStr "a--b"] ∧
    PrismaAdapter.execute "SELECT 1" (some [JSValue.vStr "a--b"]) =
        .rawExecute "SELECT 1" [JSValue.vStr "a--b"] ∧
    PrismaAdapter.execute "x" (some [JSValue.vStr "drop table users"]) =
        .rawExecute "x" [JSValue.vStr "drop table users"] :=
  ⟨claim9_adapter_execute_forwards_unvalidated.2.2.2.1 "DROP TABLE x"
      [JSValue.vObj, JSValue.vStr "a--b"] (by decide),
   claim9_adapter_execute_forwards_unvalidated.2.2.2.2.1 "SELECT 1" [JSValue.vStr "a--b"]
      (RawError.securityError "Potential SQL injection detected") (by decide),
   claim9_adapter_execute_forwards_unvalidated.2.2.2.2.2 "x"
      [("q", JSValue.vStr "drop table users")]
      (RawError.securityError "Potential SQL injection detected in parameter: q") (by decide)
      (some [JSValue.vStr "drop table users"])⟩

/-- Claim C10: pagination requested through `PrismaAdapter.query` has
no effect: the builder's base query reads only the `take` and `skip`
option fields, which the adapter never supplies, so for every options
value with `page` and/or `perPage` set the executed query carries no
skip and no take. -/
theorem claim10_adapter_pagination_has_no_effect :
    (∀ model o, o.page ≠ none ∨ o.perPage ≠ none →
        (PrismaAdapter.queryExecutedQuery model o).take = none ∧
        (PrismaAdapter.queryExecutedQuery model o).skip = none) ∧
    (∀ model o, (PrismaAdapter.transformOptions model o).take = none ∧
        (PrismaAdapter.transformOptions model o).skip = none) ∧
    (∀ o p pp, PrismaQueryBuilder.buildBaseQuery { o with page := p, perPage := pp }
        = PrismaQueryBuilder.buildBaseQuery o) :=
  ⟨fun _ _ _ => ⟨rfl, rfl⟩, fun _ _ => ⟨rfl, rfl⟩, fun _ _ _ => rfl⟩

/-- Witness for claim C10: a query with page 2 and perPage 10 executes
with neither take nor skip. -/
theorem claim10_witness :
    (PrismaAdapter.queryExecutedQuery "user" { page := some 2, perPage := some 10 }).take = none ∧
    (PrismaAdapter.queryExecutedQuery "user" { page := some 2, perPage := some 10 }).skip = none :=
  claim10_adapter_pagination_has_no_effect.1 "user"
    { page := some 2, perPage := some 10 } (Or.inl (by decide))

/-- Claim C1 (counterexample): a where mapping passed through
`PrismaAdapter.query` reaches the executed query unsanitized — the
string value x dash dash y is forwarded verbatim even though the
sanitizer would have altered it. -/
theorem claim1_counterexample :
    (PrismaAdapter.queryExecutedQuery "user"
        { where_ := some [("a", JSValue.vStr "x--y")] }).where_
      = some [("a", JSValue.vStr "x--y")] ∧
    sanitizeValue (JSValue.vStr "x--y") ≠ JSValue.vStr "x--y" :=
  ⟨rfl, by decide⟩

/-- Claim C1 (amended): filter values passed through the builder's
`where()` method are sanitized before being merged, and the
complex-filter path bypasses sanitization by contract; but where
mappings supplied as constructor options — in particular every
mapping forwarded by `PrismaAdapter.query` — are copied into the
executed query unsanitized. -/
theorem claim1_amended_sanitization_scope :
    (∀ model o, (PrismaAdapter.queryExecutedQuery model o).where_ = o.where_) ∧
    (∀ q cond key v, lookupKey cond key = some v →
        lookupKey ((PrismaQueryBuilder.where_ q cond).where_.getD []) key
          = some (sanitizeValue v)) ∧
    (∀ q sql, lookupKey ((PrismaQueryBuilder.whereComplex q sql).where_.getD []) "AND"
        = some (JSValue.vRawSql sql)) := by
  refine ⟨fun _ _ => rfl, ?_, ?_⟩
  · intro q cond key v h
    show lookupKey (mergeObj (q.where_.getD []) (sanitizeCondition cond)) key = _
    rw [lookupKey_mergeObj, lookupKey_sanitizeCondition, h]
    rfl
  · intro q sql
    show lookupKey (mergeObj (q.where_.getD []) [("AND", JSValue.vRawSql sql)]) "AND" = _
    rw [lookupKey_mergeObj]
    simp [lookupKey]

/-- Witness for claim C1 (amended): a fluent where call sanitizes its
string value. -/
theorem claim1_amended_witness :
    lookupKey ((PrismaQueryBuilder.where_ {} [("n", JSValue.vStr "ab--cd")]).where_.getD []) "n"
        = some (sanitizeValue (JSValue.vStr "ab--cd")) :=
  claim1_amended_sanitization_scope.2.1 {} [("n", JSValue.vStr "ab--cd")] "n"
    (JSValue.vStr "ab--cd") (by decide)

/-! Helper lemmas for the round-robin read rotation. -/

theorem sel_step (n cur t : Nat) :
    ((cur + 1) % n + 1 + t) % n = (cur + 1 + (t + 1)) % n := by
  conv_lhs => rw [Nat.add_assoc]
  rw [Nat.mod_add_mod]
  congr 1
  omega

theorem readSelections_eq_map (n : Nat) : ∀ (k cur : Nat),
    PrismaAdapter.readSelections n cur k = (List.range k).map fun t => (cur + 1 + t) % n := by
  intro k
  induction k with
  | zero => intro cur; simp [PrismaAdapter.readSelections]
  | succ k ih =>
      intro cur
      rw [PrismaAdapter.readSelections, ih, List.range_succ_eq_map]
      simp only [List.map_cons, List.map_map, Function.comp]
      refine congrArg₂ List.cons ?_ ?_
      · simp [PrismaAdapter.getReadClient]
      · refine List.map_congr_left fun t _ => ?_
        simpa [PrismaAdapter.getReadClient] using sel_step n cur t

/-- Claim C2: the read pool always has at least one connection; for a
pool of size N with 1 ≤ N, the N consecutive read selections starting
from any rotation index form a permutation of all connection indices
(every connection exactly once before repeating); the t-th selection
is the closed form (start plus 1 plus t) modulo N, wrapping modulo the
pool size; and for N ≥ 2 two consecutive selections never coincide. -/
theorem claim2_round_robin_rotation :
    (∀ w en rs, 1 ≤ (PrismaAdapter.initialClients w en rs).length) ∧
    (∀ n cur k, PrismaAdapter.readSelections n cur k
        = (List.range k).map fun t => (cur + 1 + t) % n) ∧
    (∀ n cur, 1 ≤ n → (PrismaAdapter.readSelections n cur n).Perm (List.range n)) ∧
    (∀ n cur t, 2 ≤ n → (cur + 1 + t) % n ≠ (cur + 1 + (t + 1)) % n) := by
  refine ⟨?_, fun n cur k => readSelections_eq_map n k cur, ?_, ?_⟩
  · intro w en rs
    cases en <;> cases rs <;> simp [PrismaAdapter.initialClients]
  · intro n cur h1
    rw [readSelections_eq_map]
    have hnodup : ((List.range n).map fun t => (cur + 1 + t) % n).Nodup := by
      refine List.Nodup.map_on ?_ (List.nodup_range n)
      intro x hx y hy hxy
      have hx' := List.mem_range.mp hx
      have hy' := List.mem_range.mp hy
      have hme : x ≡ y [MOD n] := Nat.ModEq.add_left_cancel' (cur + 1) hxy
      unfold Nat.ModEq at hme
      rwa [Nat.mod_eq_of_lt hx', Nat.mod_eq_of_lt hy'] at hme
    have hsub : ((List.range n).map fun t => (cur + 1 + t) % n) ⊆ List.range n := by
      intro z hz
      obtain ⟨t, _, rfl⟩ := List.mem_map.mp hz
      exact List.mem_range.mpr (Nat.mod_lt _ (by omega))
    refine (List.subperm_of_subset hnodup hsub).perm_of_length_le ?_
    simp
  · intro n cur t h2 h
    have hstep : cur + 1 + (t + 1) = (cur + 1 + t) + 1 := by omega
    rw [hstep] at h
    have hme : (cur + 1 + t) + 0 ≡ (cur + 1 + t) + 1 [MOD n] := by
      unfold Nat.ModEq
      simpa using h
    have h01 : (0 : Nat) % n = 1 % n := Nat.ModEq.add_left_cancel' (cur + 1 + t) hme
    rw [Nat.zero_mod, Nat.mod_eq_of_lt (by omega : 1 < n)] at h01
    exact absurd h01 (by omega)

/-- Witness for claim C2: a pool of three replicas is visited as a
permutation in three consecutive selections, and the first two
selections differ. -/
theorem claim2_witness :
    (PrismaAdapter.readSelections 3 0 3).Perm (List.range 3) ∧
    (0 + 1 + 0) % 3 ≠ (0 + 1 + (0 + 1)) % 3 :=
  ⟨claim2_round_robin_rotation.2.2.1 3 0 (by decide),
   claim2_round_robin_rotation.2.2.2 3 0 0 (by decide)⟩

/-! Helper lemmas about the Redis-state primitives. -/

theorem assocFind_removeKey {α : Type} (l : List (String × α)) (k2 k : String) :
    assocFind (removeKey l k2) k = if k = k2 then none else assocFind l k := by
  induction l with
  | nil => by_cases hk : k = k2 <;> simp [removeKey, assocFind, hk]
  | cons e rest ih =>
      by_cases hk : k = k2
      · subst hk
        by_cases h2 : e.1 = k <;> simp [removeKey, assocFind, h2, ih]
      · have hk2 : ¬ k2 = k := fun hh => hk hh.symm
        by_cases h2 : e.1 = k2
        · have he : ¬ e.1 = k := by rw [h2]; exact hk2
          simp [removeKey, assocFind, h2, he, ih, hk, hk2]
        · by_cases he : e.1 = k <;> simp [removeKey, assocFind, h2, he, ih, hk, hk2]

theorem lookupKV_kvSet (s : RedisState) (key v : String) (ttl : Nat) (k : String) :
    lookupKV (kvSet s key v ttl) k = if k = key then some (v, ttl) else lookupKV s k := by
  by_cases hk : k = key
  · simp [kvSet, lookupKV, assocFind, assocFind_removeKey, hk]
  · have hk' : ¬ key = k := fun hh => hk hh.symm
    simp [kvSet, lookupKV, assocFind, assocFind_removeKey, hk, hk']

theorem accessScore_zadd (s : RedisState) (key : String) (sc : Int) (k : String) :
    accessScore (zadd s key sc) k = if k = key then some sc else accessScore s k := by
  by_cases hk : k = key
  · simp [zadd, accessScore, assocFind, assocFind_removeKey, hk]
  · have hk' : ¬ key = k := fun hh => hk hh.symm
    simp [zadd, accessScore, assocFind, assocFind_removeKey, hk, hk']

theorem lookupKV_zadd (s : RedisState) (key : String) (sc : Int) (k : String) :
    lookupKV (zadd s key sc) k = lookupKV s k := rfl

theorem accessScore_kvSet (s : RedisState) (key v : String) (ttl : Nat) (k : String) :
    accessScore (kvSet s key v ttl) k = accessScore s k := rfl

theorem lookupKV_evictStep (st : RedisState) (k2 k : String) :
    lookupKV (PrismaCache.evictStep st k2) k = if k = k2 then none else lookupKV st k := by
  simp [PrismaCache.evictStep, lookupKV, zrem, kvDel, assocFind_removeKey]

theorem accessScore_evictStep (st : RedisState) (k2 k : String) :
    accessScore (PrismaCache.evictStep st k2) k = if k = k2 then none else accessScore st k := by
  simp [PrismaCache.evictStep, accessScore, zrem, kvDel, assocFind_removeKey]

theorem lookupKV_evictFold (L : List String) (st : RedisState) (k : String) :
    lookupKV (L.foldl PrismaCache.evictStep st) k = if k ∈ L then none else lookupKV st k := by
  induction L generalizing st with
  | nil => simp
  | cons k0 L ih =>
      rw [List.foldl_cons, ih]
      by_cases hk : k = k0 <;> by_cases hL : k ∈ L <;>
        simp [hk, hL, lookupKV_evictStep]

theorem accessScore_evictFold (L : List String) (st : RedisState) (k : String) :
    accessScore (L.foldl PrismaCache.evictStep st) k = if k ∈ L then none else accessScore st k := by
  induction L generalizing st with
  | nil => simp
  | cons k0 L ih =>
      rw [List.foldl_cons, ih]
      by_cases hk : k = k0 <;> by_cases hL : k ∈ L <;>
        simp [hk, hL, accessScore_evictStep]

theorem evictOldest_removes (c : PrismaCache.CacheState) (k : String)
    (hk : k ∈ zrangeTen c.redis) :
    lookupKV (PrismaCache.evictOldest c).redis k = none ∧
    accessScore (PrismaCache.evictOldest c).redis k = none := by
  have hne : (zrangeTen c.redis).isEmpty = false := by
    cases h : zrangeTen c.redis with
    | nil => simp [h] at hk
    | cons a l => simp
  unfold PrismaCache.evictOldest
  rw [if_neg (by simp [hne])]
  exact ⟨by simp [lookupKV_evictFold, hk], by simp [accessScore_evictFold, hk]⟩

theorem set_writes_records (maxSize : Nat) (pre model id data : String) (ttl : Nat)
    (now : Int) (c : PrismaCache.CacheState) :
    lookupKV (PrismaCache.set maxSize pre model id data ttl now c).redis
        (PrismaCache.getKey pre model id) = some (data, ttl) ∧
    accessScore (PrismaCache.set maxSize pre model id data ttl now c).redis
        (PrismaCache.getKey pre model id) = some now := by
  by_cases h : dbsize c.redis ≥ maxSize <;>
    simp [PrismaCache.set, h, lookupKV_zadd, lookupKV_kvSet, accessScore_zadd]

theorem zrangeTen_length (s : RedisState) :
    (zrangeTen s).length = min 10 s.access.length := by
  simp [zrangeTen, sortAccess, (List.perm_insertionSort accessLE s.access).length_eq]

/-- Claim C3: on every `set(entity, id, value, ttl)` call whose size
check fires (store size at or above the configured maximum), the ten
lowest-scored entries of the access-order index — the least recently
touched, since the index ranks by score with Redis's lexicographic
tie-break — are evicted before the write, with both their value
records and their access-order index entries gone afterward; the
value is then written with the TTL (whose source default is 3600
seconds) and the access timestamp is recorded for the key.  The
sortedness and permutation conjuncts pin down that the evicted batch
is exactly the ten lowest-ranked index entries; the evicted count is
ten whenever the index holds at least ten entries. -/
theorem claim3_set_evicts_ten_oldest_before_write :
    (∀ l, (sortAccess l).Perm l ∧ List.Sorted accessLE (sortAccess l)) ∧
    (∀ s : RedisState, (zrangeTen s).length = min 10 s.access.length) ∧
    (∀ s : RedisState, ∀ a ∈ (sortAccess s.access).take 10,
        ∀ b ∈ (sortAccess s.access).drop 10, accessLE a b) ∧
    (∀ c : PrismaCache.CacheState, ∀ k ∈ zrangeTen c.redis,
        lookupKV (PrismaCache.evictOldest c).redis k = none ∧
        accessScore (PrismaCache.evictOldest c).redis k = none) ∧
    (∀ maxSize pre model id data ttl now (c : PrismaCache.CacheState),
        maxSize ≤ dbsize c.redis →
        PrismaCache.set maxSize pre model id data ttl now c =
          { PrismaCache.evictOldest c with
              redis := zadd (kvSet (PrismaCache.evictOldest c).redis
                  (PrismaCache.getKey pre model id) data ttl)
                (PrismaCache.getKey pre model id) now }) ∧
    (∀ maxSize pre model id data ttl now (c : PrismaCache.CacheState),
        lookupKV (PrismaCache.set maxSize pre model id data ttl now c).redis
            (PrismaCache.getKey pre model id) = some (data, ttl) ∧
        accessScore (PrismaCache.set maxSize pre model id data ttl now c).redis
            (PrismaCache.getKey pre model id) = some now) ∧
    (∀ maxSize pre model id data now (c : PrismaCache.CacheState),
        PrismaCache.setDefaultTtl maxSize pre model id data now c
          = PrismaCache.set maxSize pre model id data 3600 now c) ∧
    (∀ maxSize pre model id data ttl now (c : PrismaCache.CacheState),
        maxSize ≤ dbsize c.redis →
        ∀ k ∈ zrangeTen c.redis, k ≠ PrismaCache.getKey pre model id →
        lookupKV (PrismaCache.set maxSize pre model id data ttl now c).redis k = none ∧
        accessScore (PrismaCache.set maxSize pre model id data ttl now c).redis k = none) := by
  refine ⟨fun l => ⟨List.perm_insertionSort accessLE l, List.sorted_insertionSort accessLE l⟩,
    zrangeTen_length, ?_, evictOldest_removes, ?_, set_writes_records,
    fun _ _ _ _ _ _ _ => rfl, ?_⟩
  · intro s a ha b hb
    exact (List.sorted_insertionSort accessLE s.access).rel_of_mem_take_of_mem_drop ha hb
  · intro maxSize pre model id data ttl now c h
    simp [PrismaCache.set, h]
  · intro maxSize pre model id data ttl now c h k hk hne
    have hred : (PrismaCache.set maxSize pre model id data ttl now c).redis
        = zadd (kvSet (PrismaCache.evictOldest c).redis
            (PrismaCache.getKey pre model id) data ttl)
          (PrismaCache.getKey pre model id) now := by
      simp [PrismaCache.set, h]
    constructor
    · rw [hred, lookupKV_zadd, lookupKV_kvSet, if_neg hne]
      exact (evictOldest_removes c k hk).1
    · rw [hred, accessScore_zadd, if_neg hne, accessScore_kvSet]
      exact (evictOldest_removes c k hk).2

/-- Witness for claim C3 on the concrete eleven-entry cache state with
a maximum size of 5: the lowest-scored key is evicted from both
records, the write decomposes as eviction followed by the value and
index writes, and the evicted key stays absent after the full set. -/
theorem claim3_witness :
    accessLE ("prisma:user:0", (0 : Int)) ("prisma:user:10", (10 : Int)) ∧
    lookupKV (PrismaCache.evictOldest demoCache).redis "prisma:user:0" = none ∧
    accessScore (PrismaCache.evictOldest demoCache).redis "prisma:user:0" = none ∧
    PrismaCache.set 5 "prisma:" "user" "99" "val" 60 1000 demoCache =
      { PrismaCache.evictOldest demoCache with
          redis := zadd (kvSet (PrismaCache.evictOldest demoCache).redis
              (PrismaCache.getKey "prisma:" "user" "99") "val" 60)
            (PrismaCache.getKey "prisma:" "user" "99") 1000 } ∧
    lookupKV (PrismaCache.set 5 "prisma:" "user" "99" "val" 60 1000 demoCache).redis
        "prisma:user:0" = none :=
  ⟨claim3_set_evicts_ten_oldest_before_write.2.2.1 demoRedis
      ("prisma:user:0", (0 : Int)) (by decide) ("prisma:user:10", (10 : Int)) (by decide),
   (claim3_set_evicts_ten_oldest_before_write.2.2.2.1 demoCache "prisma:user:0" (by decide)).1,
   (claim3_set_evicts_ten_oldest_before_write.2.2.2.1 demoCache "prisma:user:0" (by decide)).2,
   claim3_set_evicts_ten_oldest_before_write.2.2.2.2.1 5 "prisma:" "user" "99" "val" 60 1000
     demoCache (by decide),
   (claim3_set_evicts_ten_oldest_before_write.2.2.2.2.2.2.2 5 "prisma:" "user" "99" "val" 60 1000
     demoCache (by decide) "prisma:user:0" (by decide) (by decide)).1⟩

/-- Claim C5 (counterexample): `del` does not remove the two records
as one pipelined operation — its trace is two separately awaited
single commands, while `evictOldest` on a non-empty index really does
issue a single pipelined batch. -/
theorem claim5_counterexample :
    PrismaCache.delTrace "prisma:" "user" "1" =
      [PrismaCache.RedisOp.single (PrismaCache.RedisCmd.cDel "prisma:user:1"),
       PrismaCache.RedisOp.single (PrismaCache.RedisCmd.cZrem "cache:access" "prisma:user:1")] ∧
    isSinglePipelinedOp (PrismaCache.delTrace "prisma:" "user" "1") = false ∧
    isSinglePipelinedOp (PrismaCache.evictTrace demoRedis) = true := by
  refine ⟨rfl, rfl, by decide⟩

/-- Claim C5 (amended): every entry written through `set` has both a
value record and an access-order record; eviction removes both records
of each evicted key as one pipelined operation; `del` also removes
both records — so no orphaned access-order entries remain after a
completed `del` or eviction — but it does so with two separately
awaited single commands rather than one pipelined operation. -/
theorem claim5_amended_records_and_pipelining :
    (∀ maxSize pre model id data ttl now (c : PrismaCache.CacheState),
        lookupKV (PrismaCache.set maxSize pre model id data ttl now c).redis
            (PrismaCache.getKey pre model id) = some (data, ttl) ∧
        accessScore (PrismaCache.set maxSize pre model id data ttl now c).redis
            (PrismaCache.getKey pre model id) = some now) ∧
    (∀ c : PrismaCache.CacheState, ∀ k ∈ zrangeTen c.redis,
        lookupKV (PrismaCache.evictOldest c).redis k = none ∧
        accessScore (PrismaCache.evictOldest c).redis k = none) ∧
    (∀ s : RedisState, zrangeTen s ≠ [] →
        PrismaCache.evictTrace s =
          [PrismaCache.RedisOp.pipelined ((zrangeTen s).foldr
            (fun k acc => PrismaCache.RedisCmd.cDel k ::
              PrismaCache.RedisCmd.cZrem "cache:access" k :: acc) [])]) ∧
    (∀ pre model id, PrismaCache.delTrace pre model id =
        [PrismaCache.RedisOp.single (PrismaCache.RedisCmd.cDel (PrismaCache.getKey pre model id)),
         PrismaCache.RedisOp.single
           (PrismaCache.RedisCmd.cZrem "cache:access" (PrismaCache.getKey pre model id))]) ∧
    (∀ pre model id (c : PrismaCache.CacheState),
        lookupKV (PrismaCache.del pre model id c).redis (PrismaCache.getKey pre model id) = none ∧
        accessScore (PrismaCache.del pre model id c).redis
          (PrismaCache.getKey pre model id) = none) := by
  refine ⟨set_writes_records, evictOldest_removes, ?_, fun _ _ _ => rfl, ?_⟩
  · intro s hne
    have h : (zrangeTen s).isEmpty = false := by
      cases h : zrangeTen s with
      | nil => exact absurd h hne
      | cons a l => simp
    simp [PrismaCache.evictTrace, h]
  · intro pre model id c
    constructor
    · simp [PrismaCache.del, lookupKV, zrem, kvDel, assocFind_removeKey]
    · simp [PrismaCache.del, accessScore, zrem, kvDel, assocFind_removeKey]

/-- Witness for claim C5 (amended) on the concrete eleven-entry state:
the eviction batch is one pipeline, and a deleted key's value and
index records are both gone. -/
theorem claim5_witness :
    PrismaCache.evictTrace demoRedis =
      [PrismaCache.RedisOp.pipelined ((zrangeTen demoRedis).foldr
        (fun k acc => PrismaCache.RedisCmd.cDel k ::
          PrismaCache.RedisCmd.cZrem "cache:access" k :: acc) [])] ∧
    lookupKV (PrismaCache.evictOldest demoCache).redis "prisma:user:3" = none ∧
    accessScore (PrismaCache.evictOldest demoCache).redis "prisma:user:3" = none :=
  ⟨claim5_amended_records_and_pipelining.2.2.1 demoRedis (by decide),
   (claim5_amended_records_and_pipelining.2.1 demoCache "prisma:user:3" (by decide)).1,
   (claim5_amended_records_and_pipelining.2.1 demoCache "prisma:user:3" (by decide)).2⟩
